import Mathlib

/-!
Verification of the validation-data upload pipeline (validation_data.py).

The pipeline reads delimited validation (fare-tap) records and loads them into
a star schema: dimension tables Marsruts_lookup (route), TranspVeids_lookup
(vehicle type), Parks_lookup (depot), Transports_lookup (vehicle),
Transports_Marsruts_lookup (vehicle-route), and the fact table validacijas.

Each loader is a single SQL INSERT ... SELECT; we embed each one as a pure
function from the database state and the parsed record list to a new state,
or an error mirroring a DuckDB constraint/conversion exception (a failing SQL
statement is atomic: it changes nothing, which the `Except` result captures
by carrying no state on error).
-/

/-- One raw CSV row as parsed by `read_csv` with the fixed column schema:
every column is a nullable VARCHAR except `Laiks`, a nullable TIMESTAMP
(modelled as `Nat`). -/
structure RawRecord where
  Ier_ID : Option String
  Parks : Option String
  TranspVeids : Option String
  GarNr : Option String
  MarsrNos : Option String
  TMarsruts : Option String
  Virziens : Option String
  ValidTalonaId : Option String
  Laiks : Option Nat
deriving DecidableEq

/-- The warehouse state: the six tables created by `mdConnection`.
Rows are kept in insertion order. -/
structure DB where
  TranspVeids_lookup : List (Nat × String)
  Parks_lookup : List (Nat × String)
  Marsruts_lookup : List (String × String)
  Transports_lookup : List (String × Nat × Nat)
  Transports_Marsruts_lookup : List (String × String)
  validacijas : List (String × String × String × Nat)
deriving DecidableEq

def emptyDB : DB := ⟨[], [], [], [], [], []⟩

def DB.marsKeys (db : DB) : List String := db.Marsruts_lookup.map Prod.fst

def DB.tvNames (db : DB) : List String := db.TranspVeids_lookup.map Prod.snd

def DB.tvIds (db : DB) : List Nat := db.TranspVeids_lookup.map Prod.fst

def DB.parksNames (db : DB) : List String := db.Parks_lookup.map Prod.snd

def DB.parksIds (db : DB) : List Nat := db.Parks_lookup.map Prod.fst

def DB.garNrs (db : DB) : List String := db.Transports_lookup.map Prod.fst

/-- SQL `LENGTH(TRIM(s)) > 0`: the string has at least one non-whitespace
character. (Stated on the character list so that it evaluates in the kernel.) -/
def nonBlank (s : String) : Prop := (s.data.any fun c => !c.isWhitespace) = true

instance (s : String) : Decidable (nonBlank s) := by unfold nonBlank; infer_instance

/-- Byte-order comparison on character lists, modelling DuckDB's default
binary collation for `ORDER BY` on VARCHAR (UTF-8 byte order coincides with
codepoint order). -/
def charLe : List Char → List Char → Bool
  | [], _ => true
  | _ :: _, [] => false
  | a :: as, b :: bs =>
    if a.toNat < b.toNat then true
    else if b.toNat < a.toNat then false
    else charLe as bs

def strLe (a b : String) : Prop := charLe a.data b.data = true

instance : DecidableRel strLe := fun a b => decEq (charLe a.data b.data) true

/-- SQL `DISTINCT`: drop repeated values, keeping the first occurrence. -/
def dedupGo {α : Type} [DecidableEq α] (seen : List α) : List α → List α
  | [] => []
  | x :: xs => if x ∈ seen then dedupGo seen xs else x :: dedupGo (x :: seen) xs

def dedupFirst {α : Type} [DecidableEq α] (l : List α) : List α := dedupGo [] l

def sortStr (l : List String) : List String := List.insertionSort strLe l

/-- The WHERE clause of `addMarsruts`: both fields present and non-blank, and
the route code not already in `Marsruts_lookup`. -/
def marsFilter (db : DB) (r : RawRecord) : Option (String × String) :=
  match r.TMarsruts, r.MarsrNos with
  | some t, some m =>
    if nonBlank t ∧ nonBlank m ∧ t ∉ db.marsKeys then some (t, m) else none
  | _, _ => none

def marsrutsCandidates (db : DB) (recs : List RawRecord) : List (String × String) :=
  dedupFirst (recs.filterMap (marsFilter db))

/-- `INSERT INTO metabase.Marsruts_lookup (TMarsruts, MarsrNos) SELECT DISTINCT ...`:
plain insert, so two candidate pairs sharing a route code violate the primary
key and abort the whole statement. -/
def addMarsruts (db : DB) (recs : List RawRecord) : Except String DB :=
  if ((marsrutsCandidates db recs).map Prod.fst).Nodup then
    .ok { db with Marsruts_lookup := db.Marsruts_lookup ++ marsrutsCandidates db recs }
  else .error "Constraint Error: duplicate key in Marsruts_lookup"

/-- The WHERE clause of `addTranspVeids`: name present, non-blank, not already
in `TranspVeids_lookup`. -/
def tvFilter (db : DB) (r : RawRecord) : Option String :=
  match r.TranspVeids with
  | some v => if nonBlank v ∧ v ∉ db.tvNames then some v else none
  | none => none

/-- The distinct new vehicle-type names, in ascending name order (the
`ORDER BY TranspVeids` of the window function and of the insert). -/
def tvNewNames (db : DB) (recs : List RawRecord) : List String :=
  sortStr (dedupFirst (recs.filterMap (tvFilter db)))

/-- `ROW_NUMBER() OVER (ORDER BY TranspVeids)` applied to the filtered rows:
consecutive integers starting at `i` (the SQL window numbers from 1). -/
def numberFrom : Nat → List String → List (Nat × String)
  | _, [] => []
  | i, n :: ns => (i, n) :: numberFrom (i + 1) ns

/-- `INSERT INTO metabase.TranspVeids_lookup (id, TranspVeids) SELECT ROW_NUMBER() ...`:
the window function numbers only the rows that survive the WHERE clause, so
ids restart at 1 on every run; an id colliding with an existing primary key
aborts the whole statement. -/
def tvNewRows (db : DB) (recs : List RawRecord) : List (Nat × String) :=
  numberFrom 1 (tvNewNames db recs)

def addTranspVeids (db : DB) (recs : List RawRecord) : Except String DB :=
  if ∀ p ∈ tvNewRows db recs, p.1 ∉ db.tvIds then
    .ok { db with TranspVeids_lookup := db.TranspVeids_lookup ++ tvNewRows db recs }
  else .error "Constraint Error: duplicate key in TranspVeids_lookup"

/-- `SUBSTRING(Parks, 1, 1)` implicitly cast to USMALLINT: the first character
of the depot name read as a decimal digit; a non-digit first character makes
the cast fail. -/
def parksId (s : String) : Option Nat :=
  match s.data with
  | [] => none
  | c :: _ => if c.isDigit then some (c.toNat - 48) else none

/-- The WHERE clause of `addParks`: name present, non-blank, not already in
`Parks_lookup`. -/
def parksFilter (db : DB) (r : RawRecord) : Option String :=
  match r.Parks with
  | some p => if nonBlank p ∧ p ∉ db.parksNames then some p else none
  | none => none

/-- The distinct new depot names in ascending name order (`ORDER BY Parks`). -/
def parksNewNames (db : DB) (recs : List RawRecord) : List String :=
  sortStr (dedupFirst (recs.filterMap (parksFilter db)))

/-- `INSERT INTO metabase.Parks_lookup (id, Parks) SELECT DISTINCT SUBSTRING(Parks, 1, 1), Parks ...`:
the id cast happens while evaluating the SELECT, and the plain insert then
aborts when two rows share a derived id (in the batch or with an existing
row). -/
def parksNewRows (db : DB) (recs : List RawRecord) : List (Nat × String) :=
  (parksNewNames db recs).map fun n => ((parksId n).getD 0, n)

def addParks (db : DB) (recs : List RawRecord) : Except String DB :=
  if ∀ n ∈ parksNewNames db recs, (parksId n).isSome then
    if ((parksNewRows db recs).map Prod.fst).Nodup ∧
        ∀ p ∈ parksNewRows db recs, p.1 ∉ db.parksIds then
      .ok { db with Parks_lookup := db.Parks_lookup ++ parksNewRows db recs }
    else .error "Constraint Error: duplicate key in Parks_lookup"
  else .error "Conversion Error: could not cast Parks prefix to USMALLINT"

/-- An inner-join lookup of a name in an id/name table. The name columns carry
a UNIQUE constraint, so the join matches at most one row, modelled by
`find?`. -/
def lookupByName (tbl : List (Nat × String)) (name : String) : Option Nat :=
  (tbl.find? fun p => p.2 == name).map Prod.fst

/-- The join and WHERE clause of `addTransports`: a record survives when its
GarNr is present and new, and both inner joins (on the vehicle-type name and
the depot name) resolve. -/
def transFilter (db : DB) (r : RawRecord) : Option (String × Nat × Nat) :=
  match r.GarNr, r.TranspVeids, r.Parks with
  | some g, some tv, some p =>
    match lookupByName db.TranspVeids_lookup tv, lookupByName db.Parks_lookup p with
    | some tvId, some pId => if g ∉ db.garNrs then some (g, tvId, pId) else none
    | _, _ => none
  | _, _, _ => none

def transportsCandidates (db : DB) (recs : List RawRecord) : List (String × Nat × Nat) :=
  dedupFirst (recs.filterMap (transFilter db))

/-- `INSERT INTO metabase.Transports_lookup (GarNr, TranspVeids_id, Parks_id) SELECT DISTINCT ...`:
plain insert; the same GarNr joined to two different type/depot pairs
violates the primary key and aborts the statement. -/
def addTransports (db : DB) (recs : List RawRecord) : Except String DB :=
  if ((transportsCandidates db recs).map Prod.fst).Nodup then
    .ok { db with Transports_lookup := db.Transports_lookup ++ transportsCandidates db recs }
  else .error "Constraint Error: duplicate key in Transports_lookup"

/-- The joins and WHERE clause of `addTransportsMarsruts`: both fields
present, both joins resolve, and the pair is not already in the association
table. -/
def tmFilter (db : DB) (r : RawRecord) : Option (String × String) :=
  match r.GarNr, r.TMarsruts with
  | some g, some t =>
    if g ∈ db.garNrs ∧ t ∈ db.marsKeys ∧ (g, t) ∉ db.Transports_Marsruts_lookup then
      some (g, t)
    else none
  | _, _ => none

/-- `INSERT INTO metabase.Transports_Marsruts_lookup (GarNr, TMarsruts) SELECT DISTINCT ...`:
DISTINCT is over exactly the composite key and existing pairs are filtered
out by NOT EXISTS, so this insert cannot violate a constraint. -/
def addTransportsMarsruts (db : DB) (recs : List RawRecord) : Except String DB :=
  .ok { db with Transports_Marsruts_lookup :=
    db.Transports_Marsruts_lookup ++ dedupFirst (recs.filterMap (tmFilter db)) }

/-- The WHERE clause of `addValidacijas`: all four natural-key columns
non-null. -/
def valFilter (r : RawRecord) : Option (String × String × String × Nat) :=
  match r.GarNr, r.Virziens, r.ValidTalonaId, r.Laiks with
  | some g, some v, some t, some l => some (g, v, t, l)
  | _, _, _, _ => none

def validacijasRows (recs : List RawRecord) : List (String × String × String × Nat) :=
  recs.filterMap valFilter

/-- `INSERT OR IGNORE` row processing: a row whose primary key already exists
(the whole row, since the table has exactly the four key columns) is skipped;
a fresh row must satisfy the foreign key on GarNr, otherwise the statement
raises and, being atomic, leaves the table untouched. -/
def insertOrIgnore (garNrs : List String)
    (acc : List (String × String × String × Nat)) :
    List (String × String × String × Nat) →
      Except String (List (String × String × String × Nat))
  | [] => .ok acc
  | row :: rest =>
    if row ∈ acc then insertOrIgnore garNrs acc rest
    else if row.1 ∈ garNrs then insertOrIgnore garNrs (acc ++ [row]) rest
    else .error "Constraint Error: validacijas row violates foreign key on GarNr"

/-- `INSERT OR IGNORE INTO metabase.validacijas (GarNr, Virziens, ValidTalonaId, Laiks) SELECT ...`. -/
def addValidacijas (db : DB) (recs : List RawRecord) : Except String DB :=
  match insertOrIgnore db.garNrs db.validacijas (validacijasRows recs) with
  | .ok t => .ok { db with validacijas := t }
  | .error e => .error e

/-- The `main` flow of validation_data.py: the six loaders run strictly in
sequence over the same file set; a raised exception stops the run. -/
def mainPipeline (recs : List RawRecord) (db : DB) : Except String DB := do
  let d1 ← addMarsruts db recs
  let d2 ← addTranspVeids d1 recs
  let d3 ← addParks d2 recs
  let d4 ← addTransports d3 recs
  let d5 ← addTransportsMarsruts d4 recs
  addValidacijas d5 recs

/-- The six pipeline stages, named after the spec's dimension/fact loaders. -/
inductive Stage where
  | route
  | vehicleType
  | depot
  | vehicle
  | vehicleRoute
  | fact
deriving DecidableEq

/-- Which loader each stage runs. -/
def runStage : Stage → DB → List RawRecord → Except String DB
  | .route => addMarsruts
  | .vehicleType => addTranspVeids
  | .depot => addParks
  | .vehicle => addTransports
  | .vehicleRoute => addTransportsMarsruts
  | .fact => addValidacijas

/-- The order in which `main` invokes the loaders. -/
def pipelineStages : List Stage :=
  [Stage.route, Stage.vehicleType, Stage.depot, Stage.vehicle,
   Stage.vehicleRoute, Stage.fact]

/-- Every Transports_lookup row's two foreign keys resolve to existing
TranspVeids_lookup and Parks_lookup primary keys. -/
def transportsFKok (db : DB) : Prop :=
  ∀ row ∈ db.Transports_lookup, row.2.1 ∈ db.tvIds ∧ row.2.2 ∈ db.parksIds

instance (db : DB) : Decidable (transportsFKok db) := by
  unfold transportsFKok
  infer_instance

lemma mem_dedupGo {α : Type} [DecidableEq α] {a : α} :
    ∀ {seen : List α} {l : List α}, a ∈ dedupGo seen l ↔ a ∈ l ∧ a ∉ seen := by
  intro seen l
  induction l generalizing seen with
  | nil => simp [dedupGo]
  | cons x xs ih =>
    by_cases hx : x ∈ seen
    · rw [dedupGo, if_pos hx, ih]
      constructor
      · rintro ⟨h1, h2⟩
        exact ⟨List.mem_cons.mpr (Or.inr h1), h2⟩
      · rintro ⟨h1, h2⟩
        rcases List.mem_cons.mp h1 with h1 | h1
        · exact absurd (h1 ▸ hx) h2
        · exact ⟨h1, h2⟩
    · rw [dedupGo, if_neg hx]
      by_cases hax : a = x
      · subst hax
        simp [hx]
      · simp only [List.mem_cons, hax, false_or, ih, List.mem_cons]
        try tauto

lemma mem_dedupFirst {α : Type} [DecidableEq α] {a : α} {l : List α} :
    a ∈ dedupFirst l ↔ a ∈ l := by
  unfold dedupFirst; rw [mem_dedupGo]; simp

lemma nodup_dedupGo {α : Type} [DecidableEq α] :
    ∀ {seen : List α} (l : List α), (dedupGo seen l).Nodup := by
  intro seen l
  induction l generalizing seen with
  | nil => simp [dedupGo]
  | cons x xs ih =>
    by_cases hx : x ∈ seen
    · rw [dedupGo, if_pos hx]; exact ih
    · rw [dedupGo, if_neg hx]
      refine List.Nodup.cons ?_ ih
      intro hmem
      exact (mem_dedupGo.mp hmem).2 (List.mem_cons_self x seen)

lemma nodup_dedupFirst {α : Type} [DecidableEq α] (l : List α) : (dedupFirst l).Nodup :=
  nodup_dedupGo l

lemma mem_sortStr {a : String} {l : List String} : a ∈ sortStr l ↔ a ∈ l :=
  (List.perm_insertionSort strLe l).mem_iff

lemma sortStr_nodup {l : List String} (h : l.Nodup) : (sortStr l).Nodup :=
  ((List.perm_insertionSort strLe l).nodup_iff).mpr h

lemma exceptBind_ok {α β : Type} {x : Except String α} {f : α → Except String β} {b : β}
    (h : x >>= f = .ok b) : ∃ a, x = .ok a ∧ f a = .ok b := by
  cases x with
  | ok a => exact ⟨a, rfl, h⟩
  | error e => simp [Bind.bind, Except.bind] at h

lemma mainPipeline_eq (recs : List RawRecord) (db : DB) :
    mainPipeline recs db =
      addMarsruts db recs >>= fun d1 =>
      addTranspVeids d1 recs >>= fun d2 =>
      addParks d2 recs >>= fun d3 =>
      addTransports d3 recs >>= fun d4 =>
      addTransportsMarsruts d4 recs >>= fun d5 =>
      addValidacijas d5 recs := rfl

lemma addMarsruts_ok {db : DB} {recs : List RawRecord} {db' : DB}
    (h : addMarsruts db recs = .ok db') :
    db' = { db with Marsruts_lookup := db.Marsruts_lookup ++ marsrutsCandidates db recs } := by
  unfold addMarsruts at h
  split at h
  · exact (Except.ok.injEq _ _ ▸ h).symm
  · exact absurd h (by simp)

lemma addTranspVeids_ok {db : DB} {recs : List RawRecord} {db' : DB}
    (h : addTranspVeids db recs = .ok db') :
    db' = { db with TranspVeids_lookup :=
      db.TranspVeids_lookup ++ tvNewRows db recs } := by
  unfold addTranspVeids at h
  split at h
  · exact (Except.ok.injEq _ _ ▸ h).symm
  · exact absurd h (by simp)

lemma addParks_ok {db : DB} {recs : List RawRecord} {db' : DB}
    (h : addParks db recs = .ok db') :
    db' = { db with Parks_lookup := db.Parks_lookup ++ parksNewRows db recs } := by
  unfold addParks at h
  split at h
  · split at h
    · exact (Except.ok.injEq _ _ ▸ h).symm
    · exact absurd h (by simp)
  · exact absurd h (by simp)

lemma addTransports_ok {db : DB} {recs : List RawRecord} {db' : DB}
    (h : addTransports db recs = .ok db') :
    db' = { db with Transports_lookup :=
      db.Transports_lookup ++ transportsCandidates db recs } := by
  unfold addTransports at h
  split at h
  · exact (Except.ok.injEq _ _ ▸ h).symm
  · exact absurd h (by simp)

lemma addTransportsMarsruts_ok {db : DB} {recs : List RawRecord} {db' : DB}
    (h : addTransportsMarsruts db recs = .ok db') :
    db' = { db with Transports_Marsruts_lookup :=
      db.Transports_Marsruts_lookup ++ dedupFirst (recs.filterMap (tmFilter db)) } := by
  unfold addTransportsMarsruts at h
  exact (Except.ok.injEq _ _ ▸ h).symm

lemma addValidacijas_ok {db : DB} {recs : List RawRecord} {db' : DB}
    (h : addValidacijas db recs = .ok db') :
    ∃ t, insertOrIgnore db.garNrs db.validacijas (validacijasRows recs) = .ok t ∧
      db' = { db with validacijas := t } := by
  unfold addValidacijas at h
  split at h
  · next t heq => exact ⟨t, heq, (Except.ok.injEq _ _ ▸ h).symm⟩
  · exact absurd h (by simp)

lemma insertOrIgnore_ok_mem {g : List String}
    {rows : List (String × String × String × Nat)} :
    ∀ {acc res}, insertOrIgnore g acc rows = .ok res →
      (∀ x ∈ acc, x ∈ res) ∧ (∀ r ∈ rows, r ∈ res) := by
  induction rows with
  | nil =>
    intro acc res h
    rw [insertOrIgnore] at h
    cases h
    exact ⟨fun x hx => hx, by simp⟩
  | cons row rest ih =>
    intro acc res h
    rw [insertOrIgnore] at h
    split at h
    · next hmem =>
      obtain ⟨h1, h2⟩ := ih h
      refine ⟨h1, ?_⟩
      intro r hr
      rcases List.mem_cons.mp hr with rfl | hr
      · exact h1 _ hmem
      · exact h2 _ hr
    · split at h
      · obtain ⟨h1, h2⟩ := ih h
        refine ⟨fun x hx => h1 _ (List.mem_append_left _ hx), ?_⟩
        intro r hr
        rcases List.mem_cons.mp hr with rfl | hr
        · exact h1 _ (List.mem_append_right _ (List.mem_singleton_self _))
        · exact h2 _ hr
      · exact absurd h (by simp)

lemma insertOrIgnore_ok_of_fk {g : List String}
    {rows : List (String × String × String × Nat)}
    (hfk : ∀ r ∈ rows, r.1 ∈ g) :
    ∀ acc, ∃ extra, insertOrIgnore g acc rows = .ok (acc ++ extra) ∧
      (∀ x ∈ extra, x ∉ acc) ∧ (∀ x ∈ extra, x ∈ rows) := by
  induction rows with
  | nil =>
    intro acc
    exact ⟨[], by rw [insertOrIgnore]; simp, by simp, by simp⟩
  | cons row rest ih =>
    intro acc
    have hfk' : ∀ r ∈ rest, r.1 ∈ g := fun r hr => hfk r (List.mem_cons_of_mem _ hr)
    by_cases hmem : row ∈ acc
    · obtain ⟨extra, h1, h2, h3⟩ := ih hfk' acc
      exact ⟨extra, by rw [insertOrIgnore, if_pos hmem]; exact h1, h2,
        fun x hx => List.mem_cons_of_mem _ (h3 x hx)⟩
    · obtain ⟨extra, h1, h2, h3⟩ := ih hfk' (acc ++ [row])
      refine ⟨row :: extra, ?_, ?_, ?_⟩
      · rw [insertOrIgnore, if_neg hmem, if_pos (hfk row (List.mem_cons_self _ _))]
        rw [h1]
        simp
      · intro x hx
        rcases List.mem_cons.mp hx with rfl | hx
        · exact hmem
        · intro hxa
          exact h2 x hx (List.mem_append_left _ hxa)
      · intro x hx
        rcases List.mem_cons.mp hx with rfl | hx
        · exact List.mem_cons_self _ _
        · exact List.mem_cons_of_mem _ (h3 x hx)

lemma insertOrIgnore_skip_all {g : List String}
    {rows : List (String × String × String × Nat)} :
    ∀ {acc}, (∀ r ∈ rows, r ∈ acc) → insertOrIgnore g acc rows = .ok acc := by
  induction rows with
  | nil => intro acc _; rw [insertOrIgnore]
  | cons row rest ih =>
    intro acc h
    rw [insertOrIgnore, if_pos (h row (List.mem_cons_self _ _))]
    exact ih fun r hr => h r (List.mem_cons_of_mem _ hr)

lemma insertOrIgnore_error_of_bad {g : List String} {row : String × String × String × Nat}
    (hfk : row.1 ∉ g) :
    ∀ {rows : List (String × String × String × Nat)} {acc},
      row ∈ rows → row ∉ acc → (∀ x ∈ acc, x.1 ∈ g ∨ x ∈ acc) →
      ∃ e, insertOrIgnore g acc rows = .error e := by
  intro rows
  induction rows with
  | nil => intro acc h; exact absurd h (List.not_mem_nil row)
  | cons r0 rest ih =>
    intro acc hrow hacc _
    by_cases h0 : r0 ∈ acc
    · rw [insertOrIgnore, if_pos h0]
      rcases List.mem_cons.mp hrow with rfl | hrow
      · exact absurd h0 hacc
      · exact ih hrow hacc (fun x hx => Or.inr hx)
    · rw [insertOrIgnore, if_neg h0]
      by_cases hg : r0.1 ∈ g
      · rw [if_pos hg]
        rcases List.mem_cons.mp hrow with rfl | hrow
        · exact absurd hg hfk
        · have hacc' : row ∉ acc ++ [r0] := by
            intro hmem
            rcases List.mem_append.mp hmem with hmem | hmem
            · exact hacc hmem
            · rw [List.mem_singleton] at hmem
              exact hfk (hmem ▸ hg)
          exact ih hrow hacc' (fun x hx => Or.inr hx)
      · rw [if_neg hg]
        exact ⟨_, rfl⟩

lemma marsFilter_elim {db : DB} {r : RawRecord} {p : String × String}
    (h : marsFilter db r = some p) :
    r.TMarsruts = some p.1 ∧ r.MarsrNos = some p.2 ∧
      nonBlank p.1 ∧ nonBlank p.2 ∧ p.1 ∉ db.marsKeys := by
  unfold marsFilter at h
  split at h
  · split at h
    · rename_i t m ht hm hc
      cases h
      exact ⟨ht, hm, hc.1, hc.2.1, hc.2.2⟩
    · cases h
  · cases h

lemma marsFilter_intro {db : DB} {r : RawRecord} {t m : String}
    (ht : r.TMarsruts = some t) (hm : r.MarsrNos = some m)
    (h1 : nonBlank t) (h2 : nonBlank m) (h3 : t ∉ db.marsKeys) :
    marsFilter db r = some (t, m) := by
  simp [marsFilter, ht, hm, h1, h2, h3]

lemma tvFilter_elim {db : DB} {r : RawRecord} {v : String}
    (h : tvFilter db r = some v) :
    r.TranspVeids = some v ∧ nonBlank v ∧ v ∉ db.tvNames := by
  unfold tvFilter at h
  split at h
  · split at h
    · rename_i w hw hc
      cases h
      exact ⟨hw, hc.1, hc.2⟩
    · cases h
  · cases h

lemma tvFilter_intro {db : DB} {r : RawRecord} {v : String}
    (hv : r.TranspVeids = some v) (h1 : nonBlank v) (h2 : v ∉ db.tvNames) :
    tvFilter db r = some v := by
  simp [tvFilter, hv, h1, h2]

lemma parksFilter_elim {db : DB} {r : RawRecord} {v : String}
    (h : parksFilter db r = some v) :
    r.Parks = some v ∧ nonBlank v ∧ v ∉ db.parksNames := by
  unfold parksFilter at h
  split at h
  · split at h
    · rename_i w hw hc
      cases h
      exact ⟨hw, hc.1, hc.2⟩
    · cases h
  · cases h

lemma parksFilter_intro {db : DB} {r : RawRecord} {v : String}
    (hv : r.Parks = some v) (h1 : nonBlank v) (h2 : v ∉ db.parksNames) :
    parksFilter db r = some v := by
  simp [parksFilter, hv, h1, h2]

lemma transFilter_elim {db : DB} {r : RawRecord} {p : String × Nat × Nat}
    (h : transFilter db r = some p) :
    r.GarNr = some p.1 ∧
      (∃ tv, r.TranspVeids = some tv ∧
        lookupByName db.TranspVeids_lookup tv = some p.2.1) ∧
      (∃ pk, r.Parks = some pk ∧ lookupByName db.Parks_lookup pk = some p.2.2) ∧
      p.1 ∉ db.garNrs := by
  unfold transFilter at h
  split at h
  · split at h
    · split at h
      · cases h
        exact ⟨by assumption, ⟨_, by assumption, by assumption⟩,
          ⟨_, by assumption, by assumption⟩, by assumption⟩
      · cases h
    · cases h
  · cases h

lemma transFilter_intro {db : DB} {r : RawRecord} {g tv pk : String} {tvId pId : Nat}
    (hg : r.GarNr = some g) (htv : r.TranspVeids = some tv) (hpk : r.Parks = some pk)
    (hl1 : lookupByName db.TranspVeids_lookup tv = some tvId)
    (hl2 : lookupByName db.Parks_lookup pk = some pId)
    (hnew : g ∉ db.garNrs) :
    transFilter db r = some (g, tvId, pId) := by
  simp [transFilter, hg, htv, hpk, hl1, hl2, hnew]

lemma tmFilter_elim {db : DB} {r : RawRecord} {p : String × String}
    (h : tmFilter db r = some p) :
    r.GarNr = some p.1 ∧ r.TMarsruts = some p.2 ∧
      p.1 ∈ db.garNrs ∧ p.2 ∈ db.marsKeys ∧ p ∉ db.Transports_Marsruts_lookup := by
  unfold tmFilter at h
  split at h
  · split at h
    · rename_i g t hg ht hc
      cases h
      exact ⟨hg, ht, hc.1, hc.2.1, hc.2.2⟩
    · cases h
  · cases h

lemma tmFilter_intro {db : DB} {r : RawRecord} {g t : String}
    (hg : r.GarNr = some g) (ht : r.TMarsruts = some t)
    (h1 : g ∈ db.garNrs) (h2 : t ∈ db.marsKeys)
    (h3 : (g, t) ∉ db.Transports_Marsruts_lookup) :
    tmFilter db r = some (g, t) := by
  simp [tmFilter, hg, ht, h1, h2, h3]

lemma valFilter_elim {r : RawRecord} {p : String × String × String × Nat}
    (h : valFilter r = some p) :
    r.GarNr = some p.1 ∧ r.Virziens = some p.2.1 ∧
      r.ValidTalonaId = some p.2.2.1 ∧ r.Laiks = some p.2.2.2 := by
  unfold valFilter at h
  split at h
  · rename_i g v t l hg hv ht hl
    cases h
    exact ⟨hg, hv, ht, hl⟩
  · cases h

lemma valFilter_intro {r : RawRecord} {g v t : String} {l : Nat}
    (hg : r.GarNr = some g) (hv : r.Virziens = some v)
    (ht : r.ValidTalonaId = some t) (hl : r.Laiks = some l) :
    valFilter r = some (g, v, t, l) := by
  simp [valFilter, hg, hv, ht, hl]

lemma numberFrom_map_snd : ∀ (i : Nat) (ns : List String),
    (numberFrom i ns).map Prod.snd = ns := by
  intro i ns
  induction ns generalizing i with
  | nil => rfl
  | cons n ns ih => simp [numberFrom, ih]

lemma numberFrom_map_fst : ∀ (i : Nat) (ns : List String),
    (numberFrom i ns).map Prod.fst = List.range' i ns.length := by
  intro i ns
  induction ns generalizing i with
  | nil => rfl
  | cons n ns ih => simp [numberFrom, ih, List.range'_succ]

lemma DB.eta (db : DB) :
    ({ TranspVeids_lookup := db.TranspVeids_lookup, Parks_lookup := db.Parks_lookup,
       Marsruts_lookup := db.Marsruts_lookup, Transports_lookup := db.Transports_lookup,
       Transports_Marsruts_lookup := db.Transports_Marsruts_lookup,
       validacijas := db.validacijas } : DB) = db := by
  cases db
  rfl

lemma addMarsruts_of_no_new {db : DB} {recs : List RawRecord}
    (h : ∀ r ∈ recs, marsFilter db r = none) : addMarsruts db recs = .ok db := by
  have hc : marsrutsCandidates db recs = [] := by
    unfold marsrutsCandidates
    rw [List.filterMap_eq_nil_iff.mpr h]
    rfl
  unfold addMarsruts
  rw [hc]
  simp [DB.eta]

lemma addTranspVeids_of_no_new {db : DB} {recs : List RawRecord}
    (h : ∀ r ∈ recs, tvFilter db r = none) : addTranspVeids db recs = .ok db := by
  have hc : tvNewRows db recs = [] := by
    unfold tvNewRows tvNewNames sortStr
    rw [List.filterMap_eq_nil_iff.mpr h]
    rfl
  unfold addTranspVeids
  rw [hc]
  simp [DB.eta]

lemma addParks_of_no_new {db : DB} {recs : List RawRecord}
    (h : ∀ r ∈ recs, parksFilter db r = none) : addParks db recs = .ok db := by
  have hn : parksNewNames db recs = [] := by
    unfold parksNewNames sortStr
    rw [List.filterMap_eq_nil_iff.mpr h]
    rfl
  have hc : parksNewRows db recs = [] := by
    unfold parksNewRows
    rw [hn]
    rfl
  unfold addParks
  rw [hn, hc]
  simp [DB.eta]

lemma addTransports_of_no_new {db : DB} {recs : List RawRecord}
    (h : ∀ r ∈ recs, transFilter db r = none) : addTransports db recs = .ok db := by
  have hc : transportsCandidates db recs = [] := by
    unfold transportsCandidates
    rw [List.filterMap_eq_nil_iff.mpr h]
    rfl
  unfold addTransports
  rw [hc]
  simp [DB.eta]

lemma addTransportsMarsruts_of_no_new {db : DB} {recs : List RawRecord}
    (h : ∀ r ∈ recs, tmFilter db r = none) : addTransportsMarsruts db recs = .ok db := by
  unfold addTransportsMarsruts
  rw [List.filterMap_eq_nil_iff.mpr h]
  simp [dedupFirst, dedupGo, DB.eta]

lemma addValidacijas_of_all_present {db : DB} {recs : List RawRecord}
    (h : ∀ v ∈ validacijasRows recs, v ∈ db.validacijas) :
    addValidacijas db recs = .ok db := by
  unfold addValidacijas
  rw [insertOrIgnore_skip_all h]

lemma ok_bind {α β : Type} (a : α) (f : α → Except String β) :
    (Except.ok a >>= f) = f a := rfl

lemma parksNewRows_map_snd (db : DB) (recs : List RawRecord) :
    (parksNewRows db recs).map Prod.snd = parksNewNames db recs := by
  unfold parksNewRows
  rw [List.map_map]
  exact List.map_id _

lemma mainPipeline_idem {recs : List RawRecord} {db0 db1 : DB}
    (h : mainPipeline recs db0 = .ok db1) : mainPipeline recs db1 = .ok db1 := by
  rw [mainPipeline_eq] at h
  obtain ⟨da, ha, h⟩ := exceptBind_ok h
  obtain ⟨dbB, hb, h⟩ := exceptBind_ok h
  obtain ⟨dc, hc2, h⟩ := exceptBind_ok h
  obtain ⟨dd, hd, h⟩ := exceptBind_ok h
  obtain ⟨de, he, h⟩ := exceptBind_ok h
  have eA := addMarsruts_ok ha
  have eB := addTranspVeids_ok hb
  have eC := addParks_ok hc2
  have eD := addTransports_ok hd
  have eE := addTransportsMarsruts_ok he
  obtain ⟨tfin, hins, eF⟩ := addValidacijas_ok h
  have hM1 : db1.Marsruts_lookup = db0.Marsruts_lookup ++ marsrutsCandidates db0 recs := by
    rw [eF, eE, eD, eC, eB, eA]
  have hMK1 : db1.marsKeys = db0.marsKeys ++ (marsrutsCandidates db0 recs).map Prod.fst := by
    unfold DB.marsKeys
    rw [hM1, List.map_append]
  have hTV1 : db1.TranspVeids_lookup = da.TranspVeids_lookup ++ tvNewRows da recs := by
    rw [eF, eE, eD, eC, eB]
  have hTVn : db1.tvNames = da.tvNames ++ tvNewNames da recs := by
    unfold DB.tvNames
    rw [hTV1, List.map_append]
    unfold tvNewRows
    rw [numberFrom_map_snd]
  have hP1 : db1.Parks_lookup = dbB.Parks_lookup ++ parksNewRows dbB recs := by
    rw [eF, eE, eD, eC]
  have hPn : db1.parksNames = dbB.parksNames ++ parksNewNames dbB recs := by
    unfold DB.parksNames
    rw [hP1, List.map_append, parksNewRows_map_snd]
  have hT1 : db1.Transports_lookup = dc.Transports_lookup ++ transportsCandidates dc recs := by
    rw [eF, eE, eD]
  have hG1 : db1.garNrs = dc.garNrs ++ (transportsCandidates dc recs).map Prod.fst := by
    unfold DB.garNrs
    rw [hT1, List.map_append]
  have hTVeq : db1.TranspVeids_lookup = dc.TranspVeids_lookup := by
    rw [eF, eE, eD]
  have hPeq : db1.Parks_lookup = dc.Parks_lookup := by
    rw [eF, eE, eD]
  have hGeq : db1.garNrs = dd.garNrs := by
    unfold DB.garNrs
    rw [eF, eE]
  have hMKeq : db1.marsKeys = dd.marsKeys := by
    unfold DB.marsKeys
    rw [eF, eE]
  have hTM1 : db1.Transports_Marsruts_lookup =
      dd.Transports_Marsruts_lookup ++ dedupFirst (recs.filterMap (tmFilter dd)) := by
    rw [eF, eE]
  have hVeq : db1.validacijas = tfin := by
    rw [eF]
  have hA : ∀ r ∈ recs, marsFilter db1 r = none := by
    intro r hr
    cases hf : marsFilter db1 r with
    | none => rfl
    | some p =>
      exfalso
      obtain ⟨ht, hm, hbt, hbm, hnot⟩ := marsFilter_elim hf
      apply hnot
      rw [hMK1, List.mem_append]
      by_cases h0 : p.1 ∈ db0.marsKeys
      · exact Or.inl h0
      · refine Or.inr (List.mem_map.mpr ⟨p, ?_, rfl⟩)
        unfold marsrutsCandidates
        rw [mem_dedupFirst]
        exact List.mem_filterMap.mpr ⟨r, hr, marsFilter_intro ht hm hbt hbm h0⟩
  have hB : ∀ r ∈ recs, tvFilter db1 r = none := by
    intro r hr
    cases hf : tvFilter db1 r with
    | none => rfl
    | some v =>
      exfalso
      obtain ⟨hv, hbv, hnot⟩ := tvFilter_elim hf
      apply hnot
      rw [hTVn, List.mem_append]
      by_cases h0 : v ∈ da.tvNames
      · exact Or.inl h0
      · refine Or.inr ?_
        unfold tvNewNames
        rw [mem_sortStr, mem_dedupFirst]
        exact List.mem_filterMap.mpr ⟨r, hr, tvFilter_intro hv hbv h0⟩
  have hC : ∀ r ∈ recs, parksFilter db1 r = none := by
    intro r hr
    cases hf : parksFilter db1 r with
    | none => rfl
    | some v =>
      exfalso
      obtain ⟨hv, hbv, hnot⟩ := parksFilter_elim hf
      apply hnot
      rw [hPn, List.mem_append]
      by_cases h0 : v ∈ dbB.parksNames
      · exact Or.inl h0
      · refine Or.inr ?_
        unfold parksNewNames
        rw [mem_sortStr, mem_dedupFirst]
        exact List.mem_filterMap.mpr ⟨r, hr, parksFilter_intro hv hbv h0⟩
  have hD : ∀ r ∈ recs, transFilter db1 r = none := by
    intro r hr
    cases hf : transFilter db1 r with
    | none => rfl
    | some p =>
      exfalso
      obtain ⟨hg, ⟨tv, htv, hl1⟩, ⟨pk, hpk, hl2⟩, hnot⟩ := transFilter_elim hf
      apply hnot
      rw [hG1, List.mem_append]
      rw [hTVeq] at hl1
      rw [hPeq] at hl2
      by_cases h0 : p.1 ∈ dc.garNrs
      · exact Or.inl h0
      · refine Or.inr (List.mem_map.mpr ⟨p, ?_, rfl⟩)
        unfold transportsCandidates
        rw [mem_dedupFirst]
        exact List.mem_filterMap.mpr ⟨r, hr, transFilter_intro hg htv hpk hl1 hl2 h0⟩
  have hE : ∀ r ∈ recs, tmFilter db1 r = none := by
    intro r hr
    cases hf : tmFilter db1 r with
    | none => rfl
    | some p =>
      exfalso
      obtain ⟨hg, ht, hmemg, hmemk, hnot⟩ := tmFilter_elim hf
      apply hnot
      rw [hTM1, List.mem_append]
      rw [hGeq] at hmemg
      rw [hMKeq] at hmemk
      by_cases h0 : p ∈ dd.Transports_Marsruts_lookup
      · exact Or.inl h0
      · refine Or.inr ?_
        rw [mem_dedupFirst]
        exact List.mem_filterMap.mpr ⟨r, hr, tmFilter_intro hg ht hmemg hmemk h0⟩
  have hF : ∀ v ∈ validacijasRows recs, v ∈ db1.validacijas := by
    intro v hv
    rw [hVeq]
    exact (insertOrIgnore_ok_mem hins).2 v hv
  rw [mainPipeline_eq, addMarsruts_of_no_new hA, ok_bind,
    addTranspVeids_of_no_new hB, ok_bind, addParks_of_no_new hC, ok_bind,
    addTransports_of_no_new hD, ok_bind, addTransportsMarsruts_of_no_new hE, ok_bind,
    addValidacijas_of_all_present hF]

lemma charLe_total : ∀ (a b : List Char), charLe a b = true ∨ charLe b a = true := by
  intro a
  induction a with
  | nil => intro b; exact Or.inl rfl
  | cons x xs ih =>
    intro b
    cases b with
    | nil => exact Or.inr rfl
    | cons y ys =>
      by_cases hxy : x.toNat < y.toNat
      · left
        rw [charLe, if_pos hxy]
      · by_cases hyx : y.toNat < x.toNat
        · right
          rw [charLe, if_pos hyx]
        · rcases ih ys with h | h
          · left
            rw [charLe, if_neg hxy, if_neg hyx]
            exact h
          · right
            rw [charLe, if_neg hyx, if_neg hxy]
            exact h

lemma charLe_trans : ∀ (a b c : List Char), charLe a b = true → charLe b c = true →
    charLe a c = true := by
  intro a
  induction a with
  | nil => intro b c _ _; rfl
  | cons x xs ih =>
    intro b c hab hbc
    cases b with
    | nil =>
      rw [charLe] at hab
      cases hab
    | cons y ys =>
      cases c with
      | nil =>
        rw [charLe] at hbc
        cases hbc
      | cons z zs =>
        rw [charLe] at hab hbc ⊢
        by_cases hxy : x.toNat < y.toNat
        · by_cases hyz : y.toNat < z.toNat
          · rw [if_pos (Nat.lt_trans hxy hyz)]
          · by_cases hzy : z.toNat < y.toNat
            · rw [if_neg hyz, if_pos hzy] at hbc
              cases hbc
            · have hyz' : y.toNat = z.toNat :=
                Nat.le_antisymm (Nat.not_lt.mp hzy) (Nat.not_lt.mp hyz)
              rw [if_pos (hyz' ▸ hxy)]
        · by_cases hyx : y.toNat < x.toNat
          · rw [if_neg hxy, if_pos hyx] at hab
            cases hab
          · have hxy' : x.toNat = y.toNat :=
              Nat.le_antisymm (Nat.not_lt.mp hyx) (Nat.not_lt.mp hxy)
            rw [if_neg hxy, if_neg hyx] at hab
            by_cases hyz : y.toNat < z.toNat
            · rw [if_pos (hxy' ▸ hyz)]
            · by_cases hzy : z.toNat < y.toNat
              · rw [if_neg hyz, if_pos hzy] at hbc
                cases hbc
              · rw [if_neg hyz, if_neg hzy] at hbc
                have h1 : ¬x.toNat < z.toNat := by
                  rw [hxy']
                  exact hyz
                have h2 : ¬z.toNat < x.toNat := by
                  rw [hxy']
                  exact hzy
                rw [if_neg h1, if_neg h2]
                exact ih ys zs hab hbc

instance : IsTrans String strLe :=
  ⟨fun a b c hab hbc => charLe_trans a.data b.data c.data hab hbc⟩

instance : IsTotal String strLe :=
  ⟨fun a b => charLe_total a.data b.data⟩

lemma sortStr_sorted (l : List String) : List.Sorted strLe (sortStr l) :=
  List.sorted_insertionSort strLe l

lemma lookupByName_mem {tbl : List (Nat × String)} {n : String} {i : Nat}
    (h : lookupByName tbl n = some i) : i ∈ tbl.map Prod.fst := by
  unfold lookupByName at h
  cases hf : tbl.find? fun p => p.2 == n with
  | none =>
    rw [hf] at h
    cases h
  | some q =>
    rw [hf] at h
    cases h
    exact List.mem_map.mpr ⟨q, List.mem_of_find?_eq_some hf, rfl⟩

lemma addParks_ok_isSome {db : DB} {recs : List RawRecord} {db' : DB}
    (h : addParks db recs = .ok db') :
    ∀ n ∈ parksNewNames db recs, (parksId n).isSome := by
  unfold addParks at h
  split at h
  · rename_i hsome
    exact hsome
  · exact absurd h (by simp)

lemma parksNewRows_map_fst (db : DB) (recs : List RawRecord) :
    (parksNewRows db recs).map Prod.fst =
      (parksNewNames db recs).map fun n => (parksId n).getD 0 := by
  unfold parksNewRows
  rw [List.map_map]
  rfl

/-- C6: in every pipeline run the loaders execute in exactly the fixed order
route (Marsruts), vehicle type (TranspVeids), depot (Parks), vehicle
(Transports), vehicle-route (TransportsMarsruts), fact (validacijas): the
run is precisely the left fold of `runStage` over `pipelineStages`, and each
stage's result is fully computed before the next stage is applied (the fold
sequences the `Except`-valued stages, stopping at the first error). -/
theorem pipeline_fixed_stage_order (recs : List RawRecord) (db : DB) :
    mainPipeline recs db =
      List.foldlM (fun d s => runStage s d recs) db pipelineStages ∧
    pipelineStages =
      [Stage.route, Stage.vehicleType, Stage.depot, Stage.vehicle,
       Stage.vehicleRoute, Stage.fact] := by
  constructor
  · rw [mainPipeline_eq]
    simp only [pipelineStages, List.foldlM_cons, List.foldlM_nil, runStage, bind_pure]
  · rfl

/-- C1: if a full pipeline run over a file set succeeds and leaves warehouse
state `db1`, a second run over the same file set starting from `db1`
succeeds, inserts no new rows, and every table keeps exactly the row count it
had after the first run. -/
theorem pipeline_second_run_inserts_nothing (recs : List RawRecord) (db0 db1 : DB)
    (h : mainPipeline recs db0 = Except.ok db1) :
    mainPipeline recs db1 = Except.ok db1 ∧
    ∀ db2, mainPipeline recs db1 = Except.ok db2 →
      db2.Marsruts_lookup.length = db1.Marsruts_lookup.length ∧
      db2.TranspVeids_lookup.length = db1.TranspVeids_lookup.length ∧
      db2.Parks_lookup.length = db1.Parks_lookup.length ∧
      db2.Transports_lookup.length = db1.Transports_lookup.length ∧
      db2.Transports_Marsruts_lookup.length = db1.Transports_Marsruts_lookup.length ∧
      db2.validacijas.length = db1.validacijas.length := by
  have h2 := mainPipeline_idem h
  refine ⟨h2, ?_⟩
  intro db2 hdb2
  rw [h2] at hdb2
  cases hdb2
  exact ⟨rfl, rfl, rfl, rfl, rfl, rfl⟩

def recsW : List RawRecord := [⟨some "175426", some "2 parks", some "Trolejbuss",
  some "29299", some "Centrs", some "Tr35", some "Forth", some "3645190", some 100⟩]

def db1W : DB := ⟨[(1, "Trolejbuss")], [(2, "2 parks")], [("Tr35", "Centrs")],
  [("29299", 1, 2)], [("29299", "Tr35")], [("29299", "Forth", "3645190", 100)]⟩

/-- Witness for C1: a concrete one-record run from the empty warehouse
satisfies the hypothesis, and the second run leaves the state unchanged. -/
theorem pipeline_second_run_inserts_nothing_witness :
    mainPipeline recsW emptyDB = Except.ok db1W ∧
      mainPipeline recsW db1W = Except.ok db1W :=
  ⟨rfl, (pipeline_second_run_inserts_nothing recsW emptyDB db1W rfl).1⟩

/-- C3: a batch row whose four-field natural key already exists in the fact
table is silently skipped by `addValidacijas`: the load succeeds (no error),
the existing row is unchanged (same multiplicity, all stored rows kept), and
every other row of the batch is still present afterwards. The foreign-key
hypothesis says every batch row references an existing vehicle, which in any
state reachable by the pipeline is implied for the duplicate row by its
presence in the fact table. -/
theorem validacijas_duplicate_silently_skipped (db : DB) (recs : List RawRecord)
    (k : String × String × String × Nat)
    (hk : k ∈ validacijasRows recs) (hin : k ∈ db.validacijas)
    (hfk : ∀ v ∈ validacijasRows recs, v.1 ∈ db.garNrs) :
    ∃ db', addValidacijas db recs = Except.ok db' ∧
      List.count k db'.validacijas = List.count k db.validacijas ∧
      (∀ x ∈ db.validacijas, x ∈ db'.validacijas) ∧
      (∀ v ∈ validacijasRows recs, v ∈ db'.validacijas) := by
  obtain ⟨extra, h1, h2, h3⟩ := insertOrIgnore_ok_of_fk hfk db.validacijas
  refine ⟨{ db with validacijas := db.validacijas ++ extra }, ?_, ?_, ?_, ?_⟩
  · unfold addValidacijas
    rw [h1]
  · show List.count k (db.validacijas ++ extra) = List.count k db.validacijas
    have hnot : k ∉ extra := fun hk' => h2 k hk' hin
    rw [List.count_append, List.count_eq_zero.mpr hnot, Nat.add_zero]
  · intro x hx
    exact List.mem_append_left _ hx
  · intro v hv
    exact (insertOrIgnore_ok_mem h1).2 v hv

def dbC3 : DB := ⟨[(1, "Trolejbuss")], [(2, "2 parks")], [("Tr35", "Centrs")],
  [("29299", 1, 2), ("29320", 1, 2)], [], [("29299", "Forth", "3645190", 100)]⟩

def recsC3 : List RawRecord := [
  ⟨some "175426", none, none, some "29299", none, none, some "Forth", some "3645190", some 100⟩,
  ⟨some "192554", none, none, some "29320", none, none, some "Forth", some "3626095", some 101⟩]

/-- Witness for C3: a concrete batch containing one duplicate row and one
fresh row against a warehouse already holding the duplicate. -/
theorem validacijas_duplicate_silently_skipped_witness :
    ("29299", "Forth", "3645190", 100) ∈ validacijasRows recsC3 ∧
    ("29299", "Forth", "3645190", 100) ∈ dbC3.validacijas ∧
    (∀ v ∈ validacijasRows recsC3, v.1 ∈ dbC3.garNrs) ∧
    ∃ db', addValidacijas dbC3 recsC3 = Except.ok db' ∧
      List.count ("29299", "Forth", "3645190", 100) db'.validacijas =
        List.count ("29299", "Forth", "3645190", 100) dbC3.validacijas ∧
      (∀ x ∈ dbC3.validacijas, x ∈ db'.validacijas) ∧
      (∀ v ∈ validacijasRows recsC3, v ∈ db'.validacijas) :=
  ⟨by decide, by decide, by decide,
    validacijas_duplicate_silently_skipped dbC3 recsC3 _ (by decide) (by decide) (by decide)⟩

/-- C4: a batch row whose referenced vehicle (GarNr) is absent from
Transports_lookup and whose key is not already stored makes `addValidacijas`
raise a foreign-key constraint error: the statement fails (surfacing the
rejected row) and, the insert being atomic, no row of the batch is stored and
no vehicle row is ever created by the fact loader. -/
theorem validacijas_missing_vehicle_rejected (db : DB) (recs : List RawRecord)
    (row : String × String × String × Nat)
    (h1 : row ∈ validacijasRows recs) (h2 : row ∉ db.validacijas)
    (h3 : row.1 ∉ db.garNrs) :
    (∃ e, addValidacijas db recs = Except.error e) ∧
      ∀ db', addValidacijas db recs ≠ Except.ok db' := by
  obtain ⟨e, he⟩ := insertOrIgnore_error_of_bad h3 h1 h2 fun x hx => Or.inr hx
  constructor
  · refine ⟨e, ?_⟩
    unfold addValidacijas
    rw [he]
  · intro db' hok
    unfold addValidacijas at hok
    rw [he] at hok
    cases hok

def recsC4 : List RawRecord := [
  ⟨some "203671", none, none, some "71084", none, none, some "Forth", some "3433289", some 102⟩]

/-- Witness for C4: a single fresh fact row referencing a vehicle absent from
an empty Transports_lookup is rejected with an error. -/
theorem validacijas_missing_vehicle_rejected_witness :
    ("71084", "Forth", "3433289", 102) ∈ validacijasRows recsC4 ∧
    ("71084", "Forth", "3433289", 102) ∉ emptyDB.validacijas ∧
    ("71084" : String) ∉ emptyDB.garNrs ∧
    ((∃ e, addValidacijas emptyDB recsC4 = Except.error e) ∧
      ∀ db', addValidacijas emptyDB recsC4 ≠ Except.ok db') :=
  ⟨by decide, by decide, by decide,
    validacijas_missing_vehicle_rejected emptyDB recsC4 ("71084", "Forth", "3433289", 102)
      (by decide) (by decide) (by decide)⟩

/-- C7: a record with a blank (or null) route code is excluded from the Route
dimension — every route row ever inserted has a non-blank code and name — yet
the fact insert never consults the Route table: whenever the pipeline
succeeds, every record whose four natural-key fields are all present has its
fact row stored, route or no route. -/
theorem blank_route_excluded_fact_still_inserted :
    (∀ db recs db', addMarsruts db recs = Except.ok db' →
      ∀ p ∈ db'.Marsruts_lookup,
        p ∈ db.Marsruts_lookup ∨ (nonBlank p.1 ∧ nonBlank p.2)) ∧
    (∀ recs db db' r g v t l, mainPipeline recs db = Except.ok db' → r ∈ recs →
      r.GarNr = some g → r.Virziens = some v → r.ValidTalonaId = some t →
      r.Laiks = some l → (g, v, t, l) ∈ db'.validacijas) := by
  constructor
  · intro db recs db' hok p hp
    rw [addMarsruts_ok hok] at hp
    rcases List.mem_append.mp hp with hp | hp
    · exact Or.inl hp
    · right
      have hp' : p ∈ recs.filterMap (marsFilter db) := mem_dedupFirst.mp hp
      obtain ⟨r, _, hf⟩ := List.mem_filterMap.mp hp'
      obtain ⟨-, -, hb1, hb2, -⟩ := marsFilter_elim hf
      exact ⟨hb1, hb2⟩
  · intro recs db db' r g v t l hok hr hg hv ht hl
    rw [mainPipeline_eq] at hok
    obtain ⟨da, ha, hok⟩ := exceptBind_ok hok
    obtain ⟨dbB, hb, hok⟩ := exceptBind_ok hok
    obtain ⟨dc, hc2, hok⟩ := exceptBind_ok hok
    obtain ⟨dd, hd, hok⟩ := exceptBind_ok hok
    obtain ⟨de, he, hok⟩ := exceptBind_ok hok
    obtain ⟨tfin, hins, eF⟩ := addValidacijas_ok hok
    have hvmem : (g, v, t, l) ∈ validacijasRows recs :=
      List.mem_filterMap.mpr ⟨r, hr, valFilter_intro hg hv ht hl⟩
    have hmem := (insertOrIgnore_ok_mem hins).2 _ hvmem
    rw [eF]
    exact hmem

def recsC7 : List RawRecord := [⟨some "175426", some "2 parks", some "Trolejbuss",
  some "29299", some "Centrs", some "", some "Forth", some "3645190", some 100⟩]

def db1C7 : DB := ⟨[(1, "Trolejbuss")], [(2, "2 parks")], [],
  [("29299", 1, 2)], [], [("29299", "Forth", "3645190", 100)]⟩

/-- Witness for C7: a record with a blank route code loads with an empty
Route table and its fact row stored; the first conjunct is applied to the
(empty) route insert of the same run. -/
theorem blank_route_excluded_fact_still_inserted_witness :
    (addMarsruts emptyDB recsC7 = Except.ok emptyDB ∧
      ∀ p ∈ emptyDB.Marsruts_lookup,
        p ∈ emptyDB.Marsruts_lookup ∨ (nonBlank p.1 ∧ nonBlank p.2)) ∧
    (mainPipeline recsC7 emptyDB = Except.ok db1C7 ∧
      ("29299", "Forth", "3645190", 100) ∈ db1C7.validacijas) :=
  ⟨⟨rfl, blank_route_excluded_fact_still_inserted.1 emptyDB recsC7 emptyDB rfl⟩,
   ⟨rfl, blank_route_excluded_fact_still_inserted.2 recsC7 emptyDB db1C7
      (⟨some "175426", some "2 parks", some "Trolejbuss", some "29299", some "Centrs",
        some "", some "Forth", some "3645190", some 100⟩ : RawRecord)
      "29299" "Forth" "3645190" 100 rfl (by decide) rfl rfl rfl rfl⟩⟩

/-- C5: no Vehicle row with an unresolvable type or depot is ever created:
if every Transports_lookup row's foreign keys resolve before a pipeline run,
they still all resolve after it (so any state built by pipeline runs from an
empty warehouse satisfies the invariant), and a file set in which no record
resolves is skipped silently — `addTransports` succeeds and changes
nothing. -/
theorem vehicle_foreign_keys_always_resolve :
    (∀ recs db db', mainPipeline recs db = Except.ok db' →
      transportsFKok db → transportsFKok db') ∧
    (∀ db recs, (∀ r ∈ recs, transFilter db r = none) →
      addTransports db recs = Except.ok db) := by
  constructor
  · intro recs db db' hok hfk
    rw [mainPipeline_eq] at hok
    obtain ⟨da, ha, hok⟩ := exceptBind_ok hok
    obtain ⟨dbB, hb, hok⟩ := exceptBind_ok hok
    obtain ⟨dc, hc2, hok⟩ := exceptBind_ok hok
    obtain ⟨dd, hd, hok⟩ := exceptBind_ok hok
    obtain ⟨de, he, hok⟩ := exceptBind_ok hok
    obtain ⟨tfin, hins, eF⟩ := addValidacijas_ok hok
    have fkA : transportsFKok da := by
      rw [addMarsruts_ok ha]
      exact hfk
    have fkB : transportsFKok dbB := by
      rw [addTranspVeids_ok hb]
      intro row hrow
      obtain ⟨h1, h2⟩ := fkA row hrow
      refine ⟨?_, h2⟩
      show row.2.1 ∈ (da.TranspVeids_lookup ++ tvNewRows da recs).map Prod.fst
      rw [List.map_append]
      exact List.mem_append_left _ h1
    have fkC : transportsFKok dc := by
      rw [addParks_ok hc2]
      intro row hrow
      obtain ⟨h1, h2⟩ := fkB row hrow
      refine ⟨h1, ?_⟩
      show row.2.2 ∈ (dbB.Parks_lookup ++ parksNewRows dbB recs).map Prod.fst
      rw [List.map_append]
      exact List.mem_append_left _ h2
    have fkD : transportsFKok dd := by
      rw [addTransports_ok hd]
      intro row hrow
      rcases List.mem_append.mp hrow with hrow | hrow
      · exact fkC row hrow
      · have hrow' : row ∈ recs.filterMap (transFilter dc) := mem_dedupFirst.mp hrow
        obtain ⟨r, -, hf⟩ := List.mem_filterMap.mp hrow'
        obtain ⟨-, ⟨tv, -, hl1⟩, ⟨pk, -, hl2⟩, -⟩ := transFilter_elim hf
        exact ⟨lookupByName_mem hl1, lookupByName_mem hl2⟩
    have fkE : transportsFKok de := by
      rw [addTransportsMarsruts_ok he]
      exact fkD
    rw [eF]
    exact fkE
  · intro db recs h
    exact addTransports_of_no_new h

def rBadW : RawRecord :=
  ⟨some "1", some "9 dep", some "Tramvajs", some "123", some "X", some "T1",
   some "F", some "7", some 5⟩

/-- Witness for C5: the foreign-key invariant transported along the concrete
run of C1's data, and a record whose type and depot names resolve to nothing
leaving the empty warehouse unchanged without an error. -/
theorem vehicle_foreign_keys_always_resolve_witness :
    (mainPipeline recsW emptyDB = Except.ok db1W ∧ transportsFKok emptyDB ∧
      transportsFKok db1W) ∧
    ((∀ r ∈ [rBadW], transFilter emptyDB r = none) ∧
      addTransports emptyDB [rBadW] = Except.ok emptyDB) :=
  ⟨⟨rfl, by decide,
      vehicle_foreign_keys_always_resolve.1 recsW emptyDB db1W rfl (by decide)⟩,
   ⟨by decide,
      vehicle_foreign_keys_always_resolve.2 emptyDB [rBadW] (by decide)⟩⟩

/-- C10: every Depot row the loader ever inserts carries an id that is
exactly the first character of its name read as an unsigned integer, and two
distinct new depot names whose derived ids coincide (same digit first
character) make the whole insert fail with the duplicate-key constraint
error, so neither row is inserted (the statement is atomic) rather than the
collision being silently skipped. -/
theorem parks_id_derivation_and_collision :
    (∀ db recs db', addParks db recs = Except.ok db' →
      ∀ p ∈ db'.Parks_lookup, p ∈ db.Parks_lookup ∨ parksId p.2 = some p.1) ∧
    (∀ db recs n1 n2, n1 ≠ n2 →
      n1 ∈ parksNewNames db recs → n2 ∈ parksNewNames db recs →
      (∀ n ∈ parksNewNames db recs, (parksId n).isSome) →
      parksId n1 = parksId n2 →
      addParks db recs =
        Except.error "Constraint Error: duplicate key in Parks_lookup") := by
  constructor
  · intro db recs db' hok p hp
    have hsome := addParks_ok_isSome hok
    rw [addParks_ok hok] at hp
    rcases List.mem_append.mp hp with hp | hp
    · exact Or.inl hp
    · right
      obtain ⟨n, hn, hpn⟩ := List.mem_map.mp hp
      obtain ⟨m, hm⟩ := Option.isSome_iff_exists.mp (hsome n hn)
      rw [← hpn]
      show parksId n = some ((parksId n).getD 0)
      rw [hm]
      rfl
  · intro db recs n1 n2 hne h1 h2 hsome hid
    have hcond : ¬(((parksNewRows db recs).map Prod.fst).Nodup ∧
        ∀ p ∈ parksNewRows db recs, p.1 ∉ db.parksIds) := by
      rintro ⟨hnodup, -⟩
      rw [parksNewRows_map_fst] at hnodup
      exact hne (List.inj_on_of_nodup_map hnodup h1 h2 (by rw [hid]))
    unfold addParks
    rw [if_pos hsome, if_neg hcond]

def rp1W : RawRecord :=
  ⟨some "1", some "2 parks", none, none, none, none, none, none, none⟩

def rp2W : RawRecord :=
  ⟨some "2", some "2 depo", none, none, none, none, none, none, none⟩

def dbP1 : DB := ⟨[], [(2, "2 parks")], [], [], [], []⟩

/-- Witness for C10: inserting one depot derives id 2 from the name "2 parks",
and the two distinct names "2 parks" and "2 depo" sharing the first character
2 abort the insert with the duplicate-key error. -/
theorem parks_id_derivation_and_collision_witness :
    (addParks emptyDB [rp1W] = Except.ok dbP1 ∧
      ∀ p ∈ dbP1.Parks_lookup, p ∈ emptyDB.Parks_lookup ∨ parksId p.2 = some p.1) ∧
    (("2 parks" : String) ≠ "2 depo" ∧
     "2 parks" ∈ parksNewNames emptyDB [rp1W, rp2W] ∧
     "2 depo" ∈ parksNewNames emptyDB [rp1W, rp2W] ∧
     (∀ n ∈ parksNewNames emptyDB [rp1W, rp2W], (parksId n).isSome) ∧
     parksId "2 parks" = parksId "2 depo" ∧
     addParks emptyDB [rp1W, rp2W] =
       Except.error "Constraint Error: duplicate key in Parks_lookup") :=
  ⟨⟨rfl, parks_id_derivation_and_collision.1 emptyDB [rp1W] dbP1 rfl⟩,
   ⟨by decide, by decide, by decide, by decide, by decide,
    parks_id_derivation_and_collision.2 emptyDB [rp1W, rp2W] "2 parks" "2 depo"
      (by decide) (by decide) (by decide) (by decide) (by decide)⟩⟩

def dbC2 : DB := ⟨[(1, "Autobuss")], [], [], [], [], []⟩

def recsC2 : List RawRecord :=
  [⟨none, none, some "Trolejbuss", none, none, none, none, none, none⟩]

/-- C2 counterexample: with the VehicleType table non-empty (one row, id 1)
and one genuinely new non-blank name in the input, the loader does not append
the new name after the existing ids — the recomputed ROW_NUMBER id 1 collides
with the existing primary key and the whole insert fails, so the claimed
behaviour for a non-empty prior table does not hold. -/
theorem transpveids_append_after_existing_counterexample :
    ("Trolejbuss" : String) ∉ dbC2.tvNames ∧
    dbC2.TranspVeids_lookup ≠ [] ∧
    addTranspVeids dbC2 recsC2 =
      Except.error "Constraint Error: duplicate key in TranspVeids_lookup" :=
  ⟨by decide, by decide, rfl⟩

/-- C2 amended: the loader selects exactly the distinct, non-blank
vehicle-type names not already present and numbers them densely 1..k in
ascending name order, but the numbering restarts at 1 on every run instead of
continuing after the existing ids; therefore the insert with those dense ids
succeeds as described only when the table is empty (on a non-empty table the
recomputed ids collide with existing ids and the insert fails). -/
theorem transpveids_dense_ids_on_empty_table (db : DB) (recs : List RawRecord)
    (hempty : db.TranspVeids_lookup = []) :
    List.Sorted strLe (tvNewNames db recs) ∧
    (tvNewNames db recs).Nodup ∧
    (∀ s, s ∈ tvNewNames db recs ↔
      (∃ r ∈ recs, r.TranspVeids = some s) ∧ nonBlank s) ∧
    (tvNewRows db recs).map Prod.fst = List.range' 1 (tvNewNames db recs).length ∧
    (tvNewRows db recs).map Prod.snd = tvNewNames db recs ∧
    addTranspVeids db recs =
      Except.ok { db with TranspVeids_lookup := tvNewRows db recs } := by
  have htv : db.tvNames = [] := by
    unfold DB.tvNames
    rw [hempty]
    rfl
  refine ⟨sortStr_sorted _, sortStr_nodup (nodup_dedupFirst _), ?_, ?_, ?_, ?_⟩
  · intro s
    constructor
    · intro hs
      have hs' : s ∈ recs.filterMap (tvFilter db) :=
        mem_dedupFirst.mp (mem_sortStr.mp hs)
      obtain ⟨r, hr, hf⟩ := List.mem_filterMap.mp hs'
      obtain ⟨hr1, hr2, -⟩ := tvFilter_elim hf
      exact ⟨⟨r, hr, hr1⟩, hr2⟩
    · rintro ⟨⟨r, hr, hr1⟩, hr2⟩
      have hnot : s ∉ db.tvNames := by
        rw [htv]
        exact List.not_mem_nil s
      unfold tvNewNames
      rw [mem_sortStr, mem_dedupFirst]
      exact List.mem_filterMap.mpr ⟨r, hr, tvFilter_intro hr1 hr2 hnot⟩
  · unfold tvNewRows
    rw [numberFrom_map_fst]
  · unfold tvNewRows
    rw [numberFrom_map_snd]
  · have hcond : ∀ p ∈ tvNewRows db recs, p.1 ∉ db.tvIds := by
      intro p _
      unfold DB.tvIds
      rw [hempty]
      exact List.not_mem_nil _
    unfold addTranspVeids
    rw [if_pos hcond, hempty, List.nil_append]

def recsC2w : List RawRecord :=
  [⟨none, none, some "Trolejbuss", none, none, none, none, none, none⟩,
   ⟨none, none, some "Autobuss", none, none, none, none, none, none⟩]

/-- Witness for C2 (amended) at two concrete new names on the empty table:
"Autobuss" gets id 1 and "Trolejbuss" id 2, sorted ascending. -/
theorem transpveids_dense_ids_on_empty_table_witness :
    emptyDB.TranspVeids_lookup = [] ∧
    (List.Sorted strLe (tvNewNames emptyDB recsC2w) ∧
     (tvNewNames emptyDB recsC2w).Nodup ∧
     (∀ s, s ∈ tvNewNames emptyDB recsC2w ↔
       (∃ r ∈ recsC2w, r.TranspVeids = some s) ∧ nonBlank s) ∧
     (tvNewRows emptyDB recsC2w).map Prod.fst =
       List.range' 1 (tvNewNames emptyDB recsC2w).length ∧
     (tvNewRows emptyDB recsC2w).map Prod.snd = tvNewNames emptyDB recsC2w ∧
     addTranspVeids emptyDB recsC2w =
       Except.ok { emptyDB with TranspVeids_lookup := tvNewRows emptyDB recsC2w }) :=
  ⟨rfl, transpveids_dense_ids_on_empty_table emptyDB recsC2w rfl⟩

/-- Modelled from the spec: the Archive Validator (`validate_downloaded_data`)
exists in this revision only through its tests; per §4.2 it lists the
download directory's entries, where all that matters about an entry is its
name and whether it is a valid zip archive. -/
structure DirEntry where
  name : String
  isZipArchive : Bool
deriving DecidableEq

/-- Modelled from the spec: `validate_downloaded_data` fails with a
FormatError naming the exact cause — no files found, more than one file
(naming the count found), or a single file that is not a valid archive — and
on success returns the single file without mutating the directory (it is a
pure function of the listing). The message texts are the ones the tests
match. -/
def validate_downloaded_data (dir : List DirEntry) : Except String DirEntry :=
  match dir with
  | [] => .error "No files found in the download directory"
  | [f] =>
    if f.isZipArchive then .ok f
    else .error "Downloaded file is not a zip file"
  | fs => .error ("Expected 1 file, found " ++ toString fs.length)

/-- C8: the Archive Validator reports the exact cause — zero files, N > 1
files with the count named in the message, or a single non-archive file —
and on success returns the single entry (no mutation: the function is pure
and the error cases return no directory at all). -/
theorem archive_validator_exact_messages (dir : List DirEntry) :
    (dir = [] → validate_downloaded_data dir =
      Except.error "No files found in the download directory") ∧
    (2 ≤ dir.length → validate_downloaded_data dir =
      Except.error ("Expected 1 file, found " ++ toString dir.length)) ∧
    (∀ f, dir = [f] → f.isZipArchive = false →
      validate_downloaded_data dir = Except.error "Downloaded file is not a zip file") ∧
    (∀ f, dir = [f] → f.isZipArchive = true →
      validate_downloaded_data dir = Except.ok f) := by
  refine ⟨?_, ?_, ?_, ?_⟩
  · rintro rfl
    rfl
  · intro h2
    match dir, h2 with
    | a :: b :: rest, _ => rfl
  · rintro f rfl hflag
    simp [validate_downloaded_data, hflag]
  · rintro f rfl hflag
    simp [validate_downloaded_data, hflag]

def dirW : List DirEntry := [⟨"data.zip", true⟩, ⟨"extra_file.txt", false⟩]

/-- Witness for C8: a directory with two entries is rejected with the message
naming the count 2. -/
theorem archive_validator_exact_messages_witness :
    2 ≤ dirW.length ∧
      validate_downloaded_data dirW =
        Except.error ("Expected 1 file, found " ++ toString dirW.length) :=
  ⟨by decide, (archive_validator_exact_messages dirW).2.1 (by decide)⟩

/-- Modelled from the spec: the fixed legacy single-byte code page
(windows-1257) abstracted as a codec: `dec` reinterprets one byte as the
character it denotes on the page, `enc` is how a legacy-encoding writer
stored one character. -/
structure ByteCodec where
  enc : Char → Nat
  dec : Nat → Char

/-- The UTF-8 encoding of one character's code point as bytes. -/
def utf8EncodeCharBytes (ch : Char) : List Nat :=
  if ch.toNat < 128 then [ch.toNat]
  else if ch.toNat < 2048 then
    [192 ||| (ch.toNat >>> 6), 128 ||| (ch.toNat &&& 63)]
  else if ch.toNat < 65536 then
    [224 ||| (ch.toNat >>> 12), 128 ||| ((ch.toNat >>> 6) &&& 63),
     128 ||| (ch.toNat &&& 63)]
  else
    [240 ||| (ch.toNat >>> 18), 128 ||| ((ch.toNat >>> 12) &&& 63),
     128 ||| ((ch.toNat >>> 6) &&& 63), 128 ||| (ch.toNat &&& 63)]

/-- The UTF-8 byte content a UTF-8-native source holding this text would
have. -/
def utf8Bytes (cs : List Char) : List Nat :=
  cs.foldr (fun c acc => utf8EncodeCharBytes c ++ acc) []

/-- Modelled from the spec: `convert_data` (absent from this revision, present
only through its tests) reinterprets every file's bytes under the legacy code
page and re-encodes the text as UTF-8 into a new directory, one output file
per input file with the same name. -/
def convert_data (cdc : ByteCodec) (files : List (String × List Nat)) :
    List (String × List Nat) :=
  files.map fun f => (f.1, utf8Bytes (f.2.map cdc.dec))

/-- Modelled from the spec: `check_data_encoding` attempts the
schema-constrained UTF-8 parse of every file and returns the file set
unchanged when it succeeds, otherwise transcodes via `convert_data`. -/
def check_data_encoding (parsesAsUtf8 : List Nat → Bool) (cdc : ByteCodec)
    (files : List (String × List Nat)) : List (String × List Nat) :=
  if files.all fun f => parsesAsUtf8 f.2 then files else convert_data cdc files

/-- C9: for any file set written in the legacy encoding (each stored byte
decoding back to the character it encoded), transcoding yields, under each
file's original name, exactly the UTF-8 bytes a UTF-8-native source with the
same text would contain — so the decoded text, diacritics included, equals
the original byte-for-byte; and a file set that already parses as UTF-8 is
returned unchanged. -/
theorem encoding_round_trip (cdc : ByteCodec) (texts : List (String × List Char))
    (hrt : ∀ p ∈ texts, ∀ ch ∈ p.2, cdc.dec (cdc.enc ch) = ch) :
    (convert_data cdc (texts.map fun p => (p.1, p.2.map cdc.enc)) =
      texts.map fun p => (p.1, utf8Bytes p.2)) ∧
    ∀ (parses : List Nat → Bool) (files : List (String × List Nat)),
      (files.all fun f => parses f.2) = true →
      check_data_encoding parses cdc files = files := by
  constructor
  · unfold convert_data
    rw [List.map_map]
    apply List.map_congr_left
    intro p hp
    have hdec : (p.2.map cdc.enc).map cdc.dec = p.2 := by
      rw [List.map_map]
      have hcong : ∀ ch ∈ p.2, (cdc.dec ∘ cdc.enc) ch = id ch :=
        fun ch hch => hrt p hp ch hch
      rw [List.map_congr_left hcong, List.map_id]
    show (p.1, utf8Bytes ((p.2.map cdc.enc).map cdc.dec)) = (p.1, utf8Bytes p.2)
    rw [hdec]
  · intro parses files hall
    unfold check_data_encoding
    rw [if_pos hall]

/-- A toy instance of the legacy page for the witness: byte 226 denotes the
character with diacritic in the file name's text, all other bytes denote
their own code point. -/
def cdcW : ByteCodec :=
  ⟨fun c => if c = 'ā' then 226 else c.toNat,
   fun b => if b = 226 then 'ā' else Char.ofNat b⟩

def textsW : List (String × List Char) := [("data.csv", "Centrāltirgus".data)]

/-- Witness for C9: the diacritic-bearing place name stored under the toy
legacy page transcodes to exactly the UTF-8 bytes of the original text. -/
theorem encoding_round_trip_witness :
    (∀ p ∈ textsW, ∀ ch ∈ p.2, cdcW.dec (cdcW.enc ch) = ch) ∧
    convert_data cdcW (textsW.map fun p => (p.1, p.2.map cdcW.enc)) =
      textsW.map fun p => (p.1, utf8Bytes p.2) :=
  ⟨by decide, (encoding_round_trip cdcW textsW (by decide)).1⟩
